import Mathlib

/-!
Verification development for the tool-mediated generation loop of the
RAG chatbot backend.

The Generation Engine (backend/ai_generator.py, class AIGenerator) is
embedded shallowly: the Anthropic client is replaced by a call script
(a function from the index of the model call to either an exception
message or a Response), tool dispatch by a pure tool executor, and the
run of `generate_response` returns a trace (the API parameters of every
model call issued, the tool dispatches performed) together with the
outcome (the returned string, or the Python exception that escapes).
-/

/-- A content block of a model response: either a text block (with a
`.text` attribute) or a `tool_use` block (with `.name`, `.input`,
`.id` attributes and no `.text`). -/
inductive ContentBlock where
  | textBlock (text : String)
  | toolUse (name : String) (input : List (String × String)) (id : String)
deriving DecidableEq, Repr

/-- The `.type` attribute of a content block, as compared against the
string literal in `_execute_tools_for_response`. -/
def ContentBlock.type : ContentBlock → String
  | ContentBlock.textBlock _ => "text"
  | ContentBlock.toolUse _ _ _ => "tool_use"

/-- A tool-use request extracted from a content block: the tool name,
the keyword-argument mapping, and the call identifier. -/
structure ToolUseReq where
  name : String
  input : List (String × String)
  id : String
deriving DecidableEq, Repr

/-- The tool-use blocks of a response content list, in the order they
appear (the order `_execute_tools_for_response` iterates them). -/
def toolUseRequests : List ContentBlock → List ToolUseReq
  | [] => []
  | ContentBlock.toolUse nm inp i :: rest => ⟨nm, inp, i⟩ :: toolUseRequests rest
  | ContentBlock.textBlock _ :: rest => toolUseRequests rest

/-- A tool result dictionary as built by `_execute_tools_for_response`:
`{"type": "tool_result", "tool_use_id": ..., "content": ...}`. -/
structure ToolResult where
  tool_use_id : String
  content : String
deriving DecidableEq, Repr

/-- The content of a chat message: the plain user query string, the
assistant content-block list, or a list of tool results. -/
inductive MessageContent where
  | str (s : String)
  | blocks (bs : List ContentBlock)
  | toolResults (rs : List ToolResult)
deriving DecidableEq, Repr

/-- A chat message `{"role": ..., "content": ...}`. -/
structure ChatMessage where
  role : String
  content : MessageContent
deriving DecidableEq, Repr

/-- A tool schema as passed opaquely through the engine to the model. -/
structure ToolSchema where
  name : String
  description : String
deriving DecidableEq, Repr

/-- The parameters of one `client.messages.create` call: the base
parameters (model, temperature, max_tokens) plus messages and system
content; `tools = none` means the "tools" key is absent, and
`tool_choice_auto` records whether `tool_choice = {"type": "auto"}`
was set. -/
structure ApiParams where
  model : String
  temperature : Nat
  max_tokens : Nat
  messages : List ChatMessage
  system : String
  tools : Option (List ToolSchema)
  tool_choice_auto : Bool
deriving DecidableEq, Repr

/-- A model response: its stop reason and its content block list. -/
structure Response where
  stop_reason : String
  content : List ContentBlock
deriving DecidableEq, Repr

/-- A Python exception escaping `generate_response`: an exception from
`client.messages.create` itself, the AttributeError from reading
`.text` on a block without that attribute, or the IndexError from
`content[0]` on an empty list. -/
inductive PyErr where
  | apiError (msg : String)
  | attributeError
  | indexError
deriving DecidableEq, Repr

/-- A record of one `tool_manager.execute_tool` dispatch: the round in
which it happened, the tool name and the keyword arguments. -/
structure Dispatch where
  round : Int
  name : String
  input : List (String × String)
deriving DecidableEq, Repr

/-- The observable outcome of a `generate_response` run: the parameters
of every model call issued (in order), the tool dispatches performed
(in order), and the returned string or escaping exception. -/
structure GenOut where
  calls : List ApiParams
  dispatches : List Dispatch
  result : Except PyErr String
deriving Repr

/-- The tool manager as the engine uses it: `execute_tool` maps a tool
name and keyword arguments to the returned text (the registry never
raises; see the spec-modelled `ToolManager` below). -/
def ToolExecutor : Type := String → List (String × String) → String

/-- The scripted model client: the result of the i-th
`client.messages.create` call — either a raised exception message or a
response. -/
def ModelScript : Type := Nat → Except String Response

/-- The static system prompt `AIGenerator.SYSTEM_PROMPT`. -/
def SYSTEM_PROMPT : String :=
  " You are an AI assistant specialized in course materials and educational content with access to comprehensive tools for course information.\n\nAvailable Tools:\n1. **search_course_content**: For finding specific course content and detailed educational materials\n2. **get_course_outline**: For retrieving complete course outlines including title, course link, and all lessons with their numbers and titles\n\nTool Usage Guidelines:\n- **Sequential tool calling**: You can make multiple rounds of tool calls (maximum 2 rounds) to gather comprehensive information\n- **Strategic approach**: Use results from first tools to inform second round of searches when needed\n- **Round 1 examples**: Get course outline to identify relevant lessons, search for basic content\n- **Round 2 examples**: Search specific lesson content based on outline results, get additional details from identified courses\n- Use **search_course_content** for questions about specific course content and detailed educational materials\n- Use **get_course_outline** for questions about course structure, lesson lists, or when users ask for a course outline/overview\n- Synthesize tool results into accurate, fact-based responses\n- If tools yield no results, state this clearly without offering alternatives\n\nResponse Protocol:\n- **General knowledge questions**: Answer using existing knowledge without using tools\n- **Course content questions**: Use search_course_content tool first, then answer\n- **Course outline questions**: Use get_course_outline tool first, then answer  \n- **Course structure/overview questions**: Use get_course_outline tool to provide complete course information including title, course link, and all lessons\n- **Complex queries**: Use sequential tools strategically (e.g., get outline → search specific content)\n- **No meta-commentary**:\n - Provide direct answers only — no reasoning process, tool explanations, or question-type analysis\n - Do not mention \"based on the search results\" or \"using the outline tool\"\n\nFor outline responses, always include:\n- Course title\n- Course link (if available)\n- Complete list of lessons with lesson numbers and titles\n\nAll responses must be:\n1. **Brief, Concise and focused** - Get to the point quickly\n2. **Educational** - Maintain instructional value\n3. **Clear** - Use accessible language\n4. **Example-supported** - Include relevant examples when they aid understanding\nProvide only the direct answer to what was asked.\n"

/-- The AIGenerator object state the engine reads: the model name (the
client itself is replaced by the call script) and, modelled from the
spec (config.py is not under src/; the spec says the default round
count comes from global configuration), the value of
`config.MAX_TOOL_ROUNDS` used when `max_tool_rounds` is passed as
`None`. -/
structure AIGenerator where
  model : String
  config_MAX_TOOL_ROUNDS : Int
deriving DecidableEq, Repr

/-- Python truthiness of the optional `tools` list argument: `None`
and the empty list are falsy. -/
def optListTruthy (xs : Option (List ToolSchema)) : Bool :=
  match xs with
  | some (_ :: _) => true
  | some [] => false
  | none => false

/-- Python truthiness of the optional `conversation_history` string:
`None` and the empty string are falsy. -/
def optStrTruthy (s : Option String) : Bool :=
  match s with
  | some t => decide (t ≠ "")
  | none => false

/-- The system content built by `generate_response`: the static prompt,
with the previous-conversation section appended when a (truthy)
history is supplied. -/
def build_system_content (conversation_history : Option String) : String :=
  if optStrTruthy conversation_history then
    SYSTEM_PROMPT ++ ("\n\nPrevious conversation:\n") ++ conversation_history.getD ("")
  else SYSTEM_PROMPT

/-- The API parameters of the first model call of `generate_response`:
base parameters, a single user message holding the query, the system
content, and the tools plus automatic tool choice when a truthy tools
list was supplied. -/
def initial_api_params (g : AIGenerator) (query : String)
    (conversation_history : Option String) (tools : Option (List ToolSchema)) : ApiParams :=
  { model := g.model
    temperature := 0
    max_tokens := 800
    messages := [⟨"user", MessageContent.str query⟩]
    system := build_system_content conversation_history
    tools := if optListTruthy tools then tools else none
    tool_choice_auto := optListTruthy tools }

/-- Reading `response.content[0].text`: IndexError on an empty list,
AttributeError when the first block is a tool_use block. -/
def firstText (content : List ContentBlock) : Except PyErr String :=
  match content with
  | [] => Except.error PyErr.indexError
  | ContentBlock.textBlock t :: _ => Except.ok t
  | ContentBlock.toolUse _ _ _ :: _ => Except.error PyErr.attributeError

/-- Embeds `AIGenerator._execute_tools_for_response`: for every
tool_use content block, in order, dispatch through the registry and
build one tool result pairing the block id with the returned text. -/
def execute_tools_for_response (tm : ToolExecutor) : List ContentBlock → List ToolResult
  | [] => []
  | ContentBlock.toolUse nm inp i :: rest =>
      ⟨i, tm nm inp⟩ :: execute_tools_for_response tm rest
  | ContentBlock.textBlock _ :: rest => execute_tools_for_response tm rest

/-- The dispatch-trace entries produced while executing the tools of
one response in round `round`. -/
def dispatchesOf (round : Int) (content : List ContentBlock) : List Dispatch :=
  (toolUseRequests content).map (fun req => ⟨round, req.name, req.input⟩)

/-- The API parameters built inside the round loop of
`_handle_tool_execution`: base parameters, the running messages, the
base system content; tools (those of the base params, defaulting to
the empty list) plus automatic tool choice are attached exactly when
`current_round < max_tool_rounds`. -/
def round_api_params (g : AIGenerator) (base_params : ApiParams)
    (max_tool_rounds current_round : Int) (messages : List ChatMessage) : ApiParams :=
  { model := g.model
    temperature := 0
    max_tokens := 800
    messages := messages
    system := base_params.system
    tools := if current_round < max_tool_rounds then some (base_params.tools.getD []) else none
    tool_choice_auto := decide (current_round < max_tool_rounds) }

set_option linter.unusedVariables false in
/-- Embeds the while loop of `AIGenerator._handle_tool_execution`
(lines 157-186): while `current_round <= max_tool_rounds` and the
response stop reason is "tool_use", append the assistant message,
execute the tools, append the tool results as a single user message
when nonempty, issue the next model call (tools re-attached only when
`current_round < max_tool_rounds`), and increment the round; on exit
return `response.content[0].text`. -/
def tool_round_loop (g : AIGenerator) (tm : ToolExecutor) (script : ModelScript)
    (base_params : ApiParams) (max_tool_rounds : Int)
    (messages : List ChatMessage) (current_round : Int) (response : Response)
    (callIdx : Nat) : GenOut :=
  if h : current_round ≤ max_tool_rounds ∧ response.stop_reason = "tool_use" then
    let messages1 := messages ++ [⟨"assistant", MessageContent.blocks response.content⟩]
    let tool_results := execute_tools_for_response tm response.content
    let messages2 :=
      if tool_results.isEmpty then messages1
      else messages1 ++ [⟨"user", MessageContent.toolResults tool_results⟩]
    let params := round_api_params g base_params max_tool_rounds current_round messages2
    let disp := dispatchesOf current_round response.content
    match script callIdx with
    | Except.error e => ⟨[params], disp, Except.error (PyErr.apiError e)⟩
    | Except.ok response2 =>
        let rest := tool_round_loop g tm script base_params max_tool_rounds
          messages2 (current_round + 1) response2 (callIdx + 1)
        ⟨params :: rest.calls, disp ++ rest.dispatches, rest.result⟩
  else
    ⟨[], [], firstText response.content⟩
termination_by (max_tool_rounds + 1 - current_round).toNat
decreasing_by
  simp_wf
  obtain ⟨h1, -⟩ := h
  omega

/-- Embeds `AIGenerator._handle_tool_execution` (lines 138-186): copy
the base messages, start at round 1 with the initial tool-use
response, and run the round loop. `callIdx` is the script index of the
next model call. -/
def AIGenerator.handle_tool_execution (g : AIGenerator) (tm : ToolExecutor)
    (script : ModelScript) (initial_response : Response) (base_params : ApiParams)
    (max_tool_rounds : Int) (callIdx : Nat) : GenOut :=
  tool_round_loop g tm script base_params max_tool_rounds
    base_params.messages 1 initial_response callIdx

/-- The defaulting of the `max_tool_rounds` argument at the top of
`generate_response`: `None` is replaced by `config.MAX_TOOL_ROUNDS`. -/
def resolve_max_rounds (g : AIGenerator) (max_tool_rounds : Option Int) : Int :=
  match max_tool_rounds with
  | none => g.config_MAX_TOOL_ROUNDS
  | some r => r

/-- Embeds `AIGenerator.generate_response` (lines 59-109): default the
round budget from configuration when `None`, build the first call
parameters, issue call 0, and either return the first content
element's text or enter tool handling when the stop reason is
"tool_use" and a tool manager was supplied. -/
def AIGenerator.generate_response (g : AIGenerator) (script : ModelScript)
    (query : String) (conversation_history : Option String)
    (tools : Option (List ToolSchema)) (tool_manager : Option ToolExecutor)
    (max_tool_rounds : Option Int) : GenOut :=
  let R : Int := resolve_max_rounds g max_tool_rounds
  let api_params := initial_api_params g query conversation_history tools
  match script 0 with
  | Except.error e => ⟨[api_params], [], Except.error (PyErr.apiError e)⟩
  | Except.ok response =>
    match tool_manager with
    | some tm =>
        if response.stop_reason = "tool_use" then
          let out := AIGenerator.handle_tool_execution g tm script response api_params R 1
          ⟨api_params :: out.calls, out.dispatches, out.result⟩
        else ⟨[api_params], [], firstText response.content⟩
    | none => ⟨[api_params], [], firstText response.content⟩

/-- The running message list after one iteration of the round loop:
the assistant tool-use message is appended unconditionally, and the
tool results are appended as a single user message exactly when at
least one tool was executed. -/
def next_messages (tm : ToolExecutor) (messages : List ChatMessage) (resp : Response) : List ChatMessage :=
  if (execute_tools_for_response tm resp.content).isEmpty then
    messages ++ [⟨"assistant", MessageContent.blocks resp.content⟩]
  else
    messages ++ [⟨"assistant", MessageContent.blocks resp.content⟩] ++
      [⟨"user", MessageContent.toolResults (execute_tools_for_response tm resp.content)⟩]

/-- Unfolding of the round loop when its guard fails. -/
theorem tool_round_loop_exit (g : AIGenerator) (tm : ToolExecutor) (script : ModelScript)
    (base : ApiParams) (R : Int) (msgs : List ChatMessage) (cur : Int) (resp : Response) (k : Nat)
    (h : ¬(cur ≤ R ∧ resp.stop_reason = "tool_use")) :
    tool_round_loop g tm script base R msgs cur resp k = ⟨[], [], firstText resp.content⟩ := by
  rw [tool_round_loop]
  simp [h]

/-- Unfolding of the round loop when its guard holds. -/
theorem tool_round_loop_step (g : AIGenerator) (tm : ToolExecutor) (script : ModelScript)
    (base : ApiParams) (R : Int) (msgs : List ChatMessage) (cur : Int) (resp : Response) (k : Nat)
    (h1 : cur ≤ R) (h2 : resp.stop_reason = "tool_use") :
    tool_round_loop g tm script base R msgs cur resp k =
      (match script k with
       | Except.error e =>
           (⟨[round_api_params g base R cur (next_messages tm msgs resp)],
             dispatchesOf cur resp.content, Except.error (PyErr.apiError e)⟩ : GenOut)
       | Except.ok response2 =>
           (⟨round_api_params g base R cur (next_messages tm msgs resp) ::
               (tool_round_loop g tm script base R (next_messages tm msgs resp) (cur + 1) response2 (k + 1)).calls,
             dispatchesOf cur resp.content ++
               (tool_round_loop g tm script base R (next_messages tm msgs resp) (cur + 1) response2 (k + 1)).dispatches,
             (tool_round_loop g tm script base R (next_messages tm msgs resp) (cur + 1) response2 (k + 1)).result⟩ : GenOut)) := by
  rw [tool_round_loop]
  rw [dif_pos ⟨h1, h2⟩]
  rfl

/-- The tool results of a response are, in order, one per tool-use
block, each pairing the block's call identifier with the text the
registry returned for that block's name and arguments. -/
theorem execute_tools_eq_map (tm : ToolExecutor) (content : List ContentBlock) :
    execute_tools_for_response tm content =
      (toolUseRequests content).map (fun req => ⟨req.id, tm req.name req.input⟩) := by
  induction content with
  | nil => rfl
  | cons b rest ih =>
      cases b with
      | textBlock t => simpa [execute_tools_for_response, toolUseRequests] using ih
      | toolUse nm inp i => simp [execute_tools_for_response, toolUseRequests, ih]

/-- The round loop issues at most `max_tool_rounds + 1 - current_round`
further model calls. -/
theorem tool_round_loop_length_le (g : AIGenerator) (tm : ToolExecutor) (script : ModelScript)
    (base : ApiParams) (R : Int) :
    ∀ (fuel : Nat) (msgs : List ChatMessage) (cur : Int) (resp : Response) (k : Nat),
      (R + 1 - cur).toNat ≤ fuel →
      (tool_round_loop g tm script base R msgs cur resp k).calls.length ≤ (R + 1 - cur).toNat := by
  intro fuel
  induction fuel with
  | zero =>
      intro msgs cur resp k hf
      have hcur : ¬(cur ≤ R ∧ resp.stop_reason = "tool_use") := by
        intro hc
        obtain ⟨hc1, -⟩ := hc
        omega
      rw [tool_round_loop_exit _ _ _ _ _ _ _ _ _ hcur]
      simp
  | succ n ih =>
      intro msgs cur resp k hf
      by_cases hg : cur ≤ R ∧ resp.stop_reason = "tool_use"
      · obtain ⟨hg1, hg2⟩ := hg
        rw [tool_round_loop_step _ _ _ _ _ _ _ _ _ hg1 hg2]
        cases hsk : script k with
        | error e =>
            simp only [List.length_singleton]
            omega
        | ok r2 =>
            have hrec := ih (next_messages tm msgs resp) (cur + 1) r2 (k + 1) (by omega)
            simp only [List.length_cons]
            omega
      · rw [tool_round_loop_exit _ _ _ _ _ _ _ _ _ hg]
        simp

/-- Every call issued by the round loop keeps the base system content
and model, and carries tool schemas with automatic tool choice exactly
when its round index is strictly below the round budget. -/
theorem tool_round_loop_call_params (g : AIGenerator) (tm : ToolExecutor) (script : ModelScript)
    (base : ApiParams) (R : Int) :
    ∀ (fuel : Nat) (msgs : List ChatMessage) (cur : Int) (resp : Response) (k : Nat),
      (R + 1 - cur).toNat ≤ fuel →
      ∀ (j : Nat) (p : ApiParams),
        (tool_round_loop g tm script base R msgs cur resp k).calls.get? j = some p →
        p.system = base.system ∧
        p.tools = (if cur + (j : Int) < R then some (base.tools.getD []) else none) ∧
        p.tool_choice_auto = decide (cur + (j : Int) < R) ∧
        p.model = g.model := by
  intro fuel
  induction fuel with
  | zero =>
      intro msgs cur resp k hf j p hp
      have hcur : ¬(cur ≤ R ∧ resp.stop_reason = "tool_use") := by
        intro hc
        obtain ⟨hc1, -⟩ := hc
        omega
      rw [tool_round_loop_exit _ _ _ _ _ _ _ _ _ hcur] at hp
      simp at hp
  | succ n ih =>
      intro msgs cur resp k hf j p hp
      by_cases hg : cur ≤ R ∧ resp.stop_reason = "tool_use"
      · obtain ⟨hg1, hg2⟩ := hg
        rw [tool_round_loop_step _ _ _ _ _ _ _ _ _ hg1 hg2] at hp
        cases hsk : script k with
        | error e =>
            rw [hsk] at hp
            cases j with
            | zero =>
                simp only [List.get?_cons_zero, Option.some_inj] at hp
                subst hp
                simp [round_api_params]
            | succ j' => simp at hp
        | ok r2 =>
            rw [hsk] at hp
            cases j with
            | zero =>
                simp only [List.get?_cons_zero, Option.some_inj] at hp
                subst hp
                simp [round_api_params]
            | succ j' =>
                simp only [List.get?_cons_succ] at hp
                have hrec := ih (next_messages tm msgs resp) (cur + 1) r2 (k + 1) (by omega) j' p hp
                have hcast : cur + 1 + (j' : Int) = cur + ((j' + 1 : Nat) : Int) := by
                  push_cast
                  ring
                rw [hcast] at hrec
                exact hrec
      · rw [tool_round_loop_exit _ _ _ _ _ _ _ _ _ hg] at hp
        simp at hp

/-- A message the round loop may have in its running sequence: the
original user query, a bundled tool-results user message whose every
entry pairs a call identifier with the registry's returned text, or an
assistant content-block message. -/
def engine_msg (tm : ToolExecutor) (query : String) (m : ChatMessage) : Prop :=
  (m.role = "user" ∧ (m.content = MessageContent.str query ∨
     ∃ rs, m.content = MessageContent.toolResults rs ∧
       ∀ r ∈ rs, ∃ req : ToolUseReq, r.tool_use_id = req.id ∧ r.content = tm req.name req.input)) ∨
  (m.role = "assistant" ∧ ∃ bs, m.content = MessageContent.blocks bs)

/-- One loop iteration extends the running messages and preserves the
`engine_msg` shape of every message. -/
theorem next_messages_engine (tm : ToolExecutor) (query : String)
    (msgs : List ChatMessage) (resp : Response)
    (h : ∀ m ∈ msgs, engine_msg tm query m) :
    (∃ tail, next_messages tm msgs resp = msgs ++ tail) ∧
    ∀ m ∈ next_messages tm msgs resp, engine_msg tm query m := by
  have hassistant : engine_msg tm query ⟨"assistant", MessageContent.blocks resp.content⟩ := by
    right
    exact ⟨rfl, resp.content, rfl⟩
  have huser : engine_msg tm query
      ⟨"user", MessageContent.toolResults (execute_tools_for_response tm resp.content)⟩ := by
    left
    refine ⟨rfl, Or.inr ⟨execute_tools_for_response tm resp.content, rfl, ?_⟩⟩
    intro r hr
    rw [execute_tools_eq_map] at hr
    simp only [List.mem_map] at hr
    obtain ⟨req, -, rfl⟩ := hr
    exact ⟨req, rfl, rfl⟩
  unfold next_messages
  by_cases he : (execute_tools_for_response tm resp.content).isEmpty
  · rw [if_pos he]
    refine ⟨⟨_, rfl⟩, ?_⟩
    intro m hm
    rcases List.mem_append.mp hm with hm | hm
    · exact h m hm
    · rw [List.mem_singleton] at hm
      subst hm
      exact hassistant
  · rw [if_neg he]
    refine ⟨⟨_, List.append_assoc _ _ _⟩, ?_⟩
    intro m hm
    rcases List.mem_append.mp hm with hm | hm
    · rcases List.mem_append.mp hm with hm | hm
      · exact h m hm
      · rw [List.mem_singleton] at hm
        subst hm
        exact hassistant
    · rw [List.mem_singleton] at hm
      subst hm
      exact huser

/-- Every model call issued by the round loop carries a message list
that extends the entering message list and consists only of
`engine_msg`-shaped messages. -/
theorem tool_round_loop_messages (g : AIGenerator) (tm : ToolExecutor) (script : ModelScript)
    (base : ApiParams) (R : Int) (query : String) :
    ∀ (fuel : Nat) (msgs : List ChatMessage) (cur : Int) (resp : Response) (k : Nat),
      (R + 1 - cur).toNat ≤ fuel →
      (∀ m ∈ msgs, engine_msg tm query m) →
      ∀ params ∈ (tool_round_loop g tm script base R msgs cur resp k).calls,
        (∃ tail, params.messages = msgs ++ tail) ∧
        ∀ m ∈ params.messages, engine_msg tm query m := by
  intro fuel
  induction fuel with
  | zero =>
      intro msgs cur resp k hf hmsgs params hparams
      have hcur : ¬(cur ≤ R ∧ resp.stop_reason = "tool_use") := by
        intro hc
        obtain ⟨hc1, -⟩ := hc
        omega
      rw [tool_round_loop_exit _ _ _ _ _ _ _ _ _ hcur] at hparams
      simp at hparams
  | succ n ih =>
      intro msgs cur resp k hf hmsgs params hparams
      by_cases hg : cur ≤ R ∧ resp.stop_reason = "tool_use"
      · obtain ⟨hg1, hg2⟩ := hg
        obtain ⟨⟨tail0, htail0⟩, hnext⟩ := next_messages_engine tm query msgs resp hmsgs
        rw [tool_round_loop_step _ _ _ _ _ _ _ _ _ hg1 hg2] at hparams
        cases hsk : script k with
        | error e =>
            rw [hsk] at hparams
            rw [List.mem_singleton] at hparams
            subst hparams
            exact ⟨⟨tail0, htail0⟩, by simpa [round_api_params] using hnext⟩
        | ok r2 =>
            rw [hsk] at hparams
            rcases List.mem_cons.mp hparams with hparams | hparams
            · subst hparams
              exact ⟨⟨tail0, htail0⟩, by simpa [round_api_params] using hnext⟩
            · obtain ⟨⟨tail1, htail1⟩, hall⟩ :=
                ih (next_messages tm msgs resp) (cur + 1) r2 (k + 1) (by omega) hnext params hparams
              refine ⟨⟨tail0 ++ tail1, ?_⟩, hall⟩
              rw [htail1, htail0, List.append_assoc]
      · rw [tool_round_loop_exit _ _ _ _ _ _ _ _ _ hg] at hparams
        simp at hparams

/-- If the round loop issues no call, it returns the first content
element's text of the entering response; if it issues calls and the
script answers the last of them with an exception, that exception is
the loop's outcome. -/
theorem tool_round_loop_result (g : AIGenerator) (tm : ToolExecutor) (script : ModelScript)
    (base : ApiParams) (R : Int) :
    ∀ (fuel : Nat) (msgs : List ChatMessage) (cur : Int) (resp : Response) (k : Nat),
      (R + 1 - cur).toNat ≤ fuel →
      ((tool_round_loop g tm script base R msgs cur resp k).calls = [] →
         (tool_round_loop g tm script base R msgs cur resp k).result = firstText resp.content) ∧
      (∀ e, (tool_round_loop g tm script base R msgs cur resp k).calls ≠ [] →
         script (k + (tool_round_loop g tm script base R msgs cur resp k).calls.length - 1) =
           Except.error e →
         (tool_round_loop g tm script base R msgs cur resp k).result =
           Except.error (PyErr.apiError e)) := by
  intro fuel
  induction fuel with
  | zero =>
      intro msgs cur resp k hf
      have hcur : ¬(cur ≤ R ∧ resp.stop_reason = "tool_use") := by
        intro hc
        obtain ⟨hc1, -⟩ := hc
        omega
      rw [tool_round_loop_exit _ _ _ _ _ _ _ _ _ hcur]
      exact ⟨fun _ => rfl, fun e hne _ => absurd rfl hne⟩
  | succ n ih =>
      intro msgs cur resp k hf
      by_cases hg : cur ≤ R ∧ resp.stop_reason = "tool_use"
      · obtain ⟨hg1, hg2⟩ := hg
        rw [tool_round_loop_step _ _ _ _ _ _ _ _ _ hg1 hg2]
        cases hsk : script k with
        | error e0 =>
            refine ⟨fun hc => by simp at hc, ?_⟩
            intro e hne hlast
            simp only [List.length_singleton] at hlast
            have : k + 1 - 1 = k := by omega
            rw [this, hsk] at hlast
            obtain rfl : e0 = e := by
              injection hlast
            rfl
        | ok r2 =>
            obtain ⟨ihnil, ihlast⟩ := ih (next_messages tm msgs resp) (cur + 1) r2 (k + 1) (by omega)
            refine ⟨fun hc => by simp at hc, ?_⟩
            intro e hne hlast
            simp only [List.length_cons] at hlast
            rcases hrest : (tool_round_loop g tm script base R (next_messages tm msgs resp)
                (cur + 1) r2 (k + 1)).calls with _ | ⟨c, cs⟩
            · exfalso
              rw [hrest] at hlast
              simp only [List.length_nil] at hlast
              have : k + (0 + 1) - 1 = k := by omega
              rw [this, hsk] at hlast
              exact Except.noConfusion hlast
            · have hlen : (tool_round_loop g tm script base R (next_messages tm msgs resp)
                  (cur + 1) r2 (k + 1)).calls.length = cs.length + 1 := by
                rw [hrest]
                simp
              have harg : k + ((tool_round_loop g tm script base R (next_messages tm msgs resp)
                  (cur + 1) r2 (k + 1)).calls.length + 1) - 1 =
                  k + 1 + (tool_round_loop g tm script base R (next_messages tm msgs resp)
                  (cur + 1) r2 (k + 1)).calls.length - 1 := by
                omega
              rw [hlen] at hlast
              have hlast2 : script (k + 1 + (tool_round_loop g tm script base R
                  (next_messages tm msgs resp) (cur + 1) r2 (k + 1)).calls.length - 1) =
                  Except.error e := by
                rw [hlen]
                have : k + 1 + (cs.length + 1) - 1 = k + (cs.length + 1 + 1) - 1 := by omega
                rw [this]
                exact hlast
              exact ihlast e (by rw [hrest]; simp) hlast2
      · rw [tool_round_loop_exit _ _ _ _ _ _ _ _ _ hg]
        exact ⟨fun _ => rfl, fun e hne _ => absurd rfl hne⟩

/-- Every dispatch recorded by the round loop happens in a round at
least the entering round number. -/
theorem tool_round_loop_dispatch_round (g : AIGenerator) (tm : ToolExecutor) (script : ModelScript)
    (base : ApiParams) (R : Int) :
    ∀ (fuel : Nat) (msgs : List ChatMessage) (cur : Int) (resp : Response) (k : Nat),
      (R + 1 - cur).toNat ≤ fuel →
      ∀ d ∈ (tool_round_loop g tm script base R msgs cur resp k).dispatches, cur ≤ d.round := by
  intro fuel
  induction fuel with
  | zero =>
      intro msgs cur resp k hf d hd
      have hcur : ¬(cur ≤ R ∧ resp.stop_reason = "tool_use") := by
        intro hc
        obtain ⟨hc1, -⟩ := hc
        omega
      rw [tool_round_loop_exit _ _ _ _ _ _ _ _ _ hcur] at hd
      simp at hd
  | succ n ih =>
      intro msgs cur resp k hf d hd
      by_cases hg : cur ≤ R ∧ resp.stop_reason = "tool_use"
      · obtain ⟨hg1, hg2⟩ := hg
        rw [tool_round_loop_step _ _ _ _ _ _ _ _ _ hg1 hg2] at hd
        have hhere : ∀ d0 ∈ dispatchesOf cur resp.content, cur ≤ d0.round := by
          intro d0 hd0
          unfold dispatchesOf at hd0
          simp only [List.mem_map] at hd0
          obtain ⟨req, -, rfl⟩ := hd0
          exact le_refl cur
        cases hsk : script k with
        | error e =>
            rw [hsk] at hd
            exact hhere d hd
        | ok r2 =>
            rw [hsk] at hd
            rcases List.mem_append.mp hd with hd | hd
            · exact hhere d hd
            · have := ih (next_messages tm msgs resp) (cur + 1) r2 (k + 1) (by omega) d hd
              omega
      · rw [tool_round_loop_exit _ _ _ _ _ _ _ _ _ hg] at hd
        simp at hd

/-- A concrete tool-use block used by the witness scenarios. -/
def egBlock : ContentBlock :=
  ContentBlock.toolUse ("search_course_content") [(("query"), ("machine learning"))] ("tu1")

/-- A concrete tool-use response used by the witness scenarios. -/
def egToolUseResp : Response := ⟨"tool_use", [egBlock]⟩

/-- A concrete terminal text response used by the witness scenarios. -/
def egTextResp : Response := ⟨"end_turn", [ContentBlock.textBlock ("the answer")]⟩

/-- A script answering the first call with a tool-use response and
every later call with a terminal text response. -/
def egScript : ModelScript := fun n => if n = 0 then Except.ok egToolUseResp else Except.ok egTextResp

/-- A script answering every call with a terminal text response. -/
def egScriptText : ModelScript := fun _ => Except.ok egTextResp

/-- A concrete tool executor used by the witness scenarios. -/
def egExec : ToolExecutor := fun nm _ => nm ++ (" results")

/-- A concrete generator used by the witness scenarios. -/
def egGen : AIGenerator := ⟨"claude-sonnet-4", 2⟩

/-- Claim C2: whenever the first model response's stop reason is not
"tool_use", or no tool_manager was supplied, exactly one model call is
made in total, no tool is dispatched, and the returned string is the
text of that response's first content element. -/
theorem claim_C2_single_call (g : AIGenerator) (script : ModelScript) (query : String)
    (hist : Option String) (tools : Option (List ToolSchema)) (tool_manager : Option ToolExecutor)
    (mtr : Option Int) (resp : Response)
    (h0 : script 0 = Except.ok resp)
    (hcond : resp.stop_reason ≠ "tool_use" ∨ tool_manager = none) :
    (AIGenerator.generate_response g script query hist tools tool_manager mtr).calls.length = 1 ∧
    (AIGenerator.generate_response g script query hist tools tool_manager mtr).dispatches = [] ∧
    (AIGenerator.generate_response g script query hist tools tool_manager mtr).result =
      firstText resp.content ∧
    (∀ t rest, resp.content = ContentBlock.textBlock t :: rest →
      (AIGenerator.generate_response g script query hist tools tool_manager mtr).result =
        Except.ok t) := by
  have hrun : AIGenerator.generate_response g script query hist tools tool_manager mtr =
      ⟨[initial_api_params g query hist tools], [], firstText resp.content⟩ := by
    rcases hcond with hcond | hcond
    · cases tool_manager with
      | none => simp only [AIGenerator.generate_response, h0]
      | some tm => simp only [AIGenerator.generate_response, h0, if_neg hcond]
    · subst hcond
      simp only [AIGenerator.generate_response, h0]
  rw [hrun]
  refine ⟨rfl, rfl, rfl, ?_⟩
  intro t rest hc
  simp only [firstText, hc]

/-- Witness for claim C2. -/
theorem claim_C2_witness :
    egScriptText 0 = Except.ok egTextResp ∧
    (AIGenerator.generate_response egGen egScriptText ("hello") none none none none).calls.length = 1 := by
  refine ⟨rfl, ?_⟩
  exact (claim_C2_single_call egGen egScriptText ("hello") none none none none egTextResp rfl
    (Or.inr rfl)).1

/-- Claim C9: with a round budget below 1, a tool manager, and a first
response whose stop reason is "tool_use", no tool is dispatched and no
second model call is made; the engine returns the `.text` attribute of
the first content element, which for a tool_use block is an
AttributeError rather than a graceful terminal answer. -/
theorem claim_C9_zero_round_budget (g : AIGenerator) (script : ModelScript) (query : String)
    (hist : Option String) (tools : Option (List ToolSchema)) (tm : ToolExecutor)
    (R : Int) (resp : Response)
    (hR : R < 1)
    (h0 : script 0 = Except.ok resp)
    (hstop : resp.stop_reason = "tool_use") :
    (AIGenerator.generate_response g script query hist tools (some tm) (some R)).calls.length = 1 ∧
    (AIGenerator.generate_response g script query hist tools (some tm) (some R)).dispatches = [] ∧
    (AIGenerator.generate_response g script query hist tools (some tm) (some R)).result =
      firstText resp.content ∧
    (∀ nm inp i rest, resp.content = ContentBlock.toolUse nm inp i :: rest →
      (AIGenerator.generate_response g script query hist tools (some tm) (some R)).result =
        Except.error PyErr.attributeError) := by
  have hexit : tool_round_loop g tm script (initial_api_params g query hist tools) R
      (initial_api_params g query hist tools).messages 1 resp 1 =
      ⟨[], [], firstText resp.content⟩ := by
    apply tool_round_loop_exit
    intro hc
    obtain ⟨hc1, -⟩ := hc
    omega
  have hrun : AIGenerator.generate_response g script query hist tools (some tm) (some R) =
      ⟨[initial_api_params g query hist tools], [], firstText resp.content⟩ := by
    simp only [AIGenerator.generate_response, resolve_max_rounds, h0, if_pos hstop,
      AIGenerator.handle_tool_execution, hexit]
  rw [hrun]
  refine ⟨rfl, rfl, rfl, ?_⟩
  intro nm inp i rest hc
  simp only [firstText, hc]

/-- Witness for claim C9. -/
theorem claim_C9_witness :
    (0 : Int) < 1 ∧ egScript 0 = Except.ok egToolUseResp ∧
    (AIGenerator.generate_response egGen egScript ("hello") none none (some egExec)
      (some 0)).calls.length = 1 := by
  refine ⟨by decide, rfl, ?_⟩
  exact (claim_C9_zero_round_budget egGen egScript ("hello") none none egExec 0 egToolUseResp
    (by decide) rfl rfl).1

/-- Claim C1: for a round budget R >= 1, `generate_response` together
with `_handle_tool_execution` issues at most R + 1 model calls; the
call issued for round R (call index R in the trace) carries no tool
schemas and no tool choice and is the last call of the run, and every
call of a round strictly before R carries the base tool schemas with
automatic tool choice. -/
theorem claim_C1_round_boundedness (g : AIGenerator) (script : ModelScript) (query : String)
    (hist : Option String) (tools : Option (List ToolSchema)) (tm : ToolExecutor) (R : Int)
    (hR : 1 ≤ R) :
    ((AIGenerator.generate_response g script query hist tools (some tm) (some R)).calls.length : Int)
      ≤ R + 1 ∧
    ∀ (j : Nat) (p : ApiParams),
      (AIGenerator.generate_response g script query hist tools (some tm) (some R)).calls.get? j =
        some p →
      1 ≤ j →
      (((j : Int) = R) → p.tools = none ∧ p.tool_choice_auto = false ∧
        j + 1 = (AIGenerator.generate_response g script query hist tools (some tm)
          (some R)).calls.length) ∧
      (((j : Int) < R) →
        p.tools = some ((initial_api_params g query hist tools).tools.getD []) ∧
        p.tool_choice_auto = true) := by
  cases h0 : script 0 with
  | error e =>
      have hrun : AIGenerator.generate_response g script query hist tools (some tm) (some R) =
          ⟨[initial_api_params g query hist tools], [], Except.error (PyErr.apiError e)⟩ := by
        simp only [AIGenerator.generate_response, h0]
      rw [hrun]
      refine ⟨by simp; omega, ?_⟩
      intro j p hp hj1
      rcases j with _ | j'
      · omega
      · simp at hp
  | ok resp =>
      by_cases hstop : resp.stop_reason = "tool_use"
      · have hrun : AIGenerator.generate_response g script query hist tools (some tm) (some R) =
            ⟨initial_api_params g query hist tools ::
              (tool_round_loop g tm script (initial_api_params g query hist tools) R
                (initial_api_params g query hist tools).messages 1 resp 1).calls,
             (tool_round_loop g tm script (initial_api_params g query hist tools) R
                (initial_api_params g query hist tools).messages 1 resp 1).dispatches,
             (tool_round_loop g tm script (initial_api_params g query hist tools) R
                (initial_api_params g query hist tools).messages 1 resp 1).result⟩ := by
          simp only [AIGenerator.generate_response, resolve_max_rounds, h0, if_pos hstop,
            AIGenerator.handle_tool_execution]
        have hlen := tool_round_loop_length_le g tm script (initial_api_params g query hist tools) R
          ((R + 1 - 1).toNat) (initial_api_params g query hist tools).messages 1 resp 1 (le_refl _)
        rw [hrun]
        constructor
        · simp only [List.length_cons]
          omega
        · intro j p hp hj1
          rcases j with _ | j'
          · omega
          · simp only [List.get?_cons_succ] at hp
            have hj'lt : j' < (tool_round_loop g tm script (initial_api_params g query hist tools) R
                (initial_api_params g query hist tools).messages 1 resp 1).calls.length := by
              rcases List.get?_eq_some.mp hp with ⟨hlt, -⟩
              exact hlt
            have hprops := tool_round_loop_call_params g tm script
              (initial_api_params g query hist tools) R ((R + 1 - 1).toNat)
              (initial_api_params g query hist tools).messages 1 resp 1 (le_refl _) j' p hp
            obtain ⟨-, htools, hchoice, -⟩ := hprops
            constructor
            · intro hjR
              have hcond : ¬(1 + (j' : Int) < R) := by
                push_cast at hjR
                omega
              refine ⟨by rw [htools, if_neg hcond], by rw [hchoice]; simp [hcond], ?_⟩
              simp only [List.length_cons]
              push_cast at hjR
              omega
            · intro hjR
              have hcond : 1 + (j' : Int) < R := by
                push_cast at hjR
                omega
              exact ⟨by rw [htools, if_pos hcond], by rw [hchoice]; simp [hcond]⟩
      · have hrun : AIGenerator.generate_response g script query hist tools (some tm) (some R) =
            ⟨[initial_api_params g query hist tools], [], firstText resp.content⟩ := by
          simp only [AIGenerator.generate_response, h0, if_neg hstop]
        rw [hrun]
        refine ⟨by simp; omega, ?_⟩
        intro j p hp hj1
        rcases j with _ | j'
        · omega
        · simp at hp

/-- Witness for claim C1. -/
theorem claim_C1_witness :
    (1 : Int) ≤ 2 ∧
    ((AIGenerator.generate_response egGen egScript ("hello") none none (some egExec)
      (some 2)).calls.length : Int) ≤ 2 + 1 := by
  refine ⟨by decide, ?_⟩
  exact (claim_C1_round_boundedness egGen egScript ("hello") none none egExec 2 (by decide)).1

/-- Claim C4: on every model call of a query, the system content is the
fixed system prompt, extended by a "Previous conversation:" section
holding the history exactly when a history was supplied; the first
message of every call is the plain user query, and no user message
ever carries anything but the query text or bundled tool results. -/
theorem claim_C4_system_and_history (g : AIGenerator) (script : ModelScript) (query : String)
    (hist : Option String) (tools : Option (List ToolSchema)) (tool_manager : Option ToolExecutor)
    (mtr : Option Int) :
    (hist = none → build_system_content hist = SYSTEM_PROMPT) ∧
    (∀ s, hist = some s → s ≠ "" →
      build_system_content hist = SYSTEM_PROMPT ++ ("\n\nPrevious conversation:\n") ++ s) ∧
    ∀ params ∈ (AIGenerator.generate_response g script query hist tools tool_manager mtr).calls,
      params.system = build_system_content hist ∧
      params.messages.head? = some ⟨"user", MessageContent.str query⟩ ∧
      (∀ m ∈ params.messages, m.role = "user" →
        m.content = MessageContent.str query ∨ ∃ rs, m.content = MessageContent.toolResults rs) := by
  refine ⟨?_, ?_, ?_⟩
  · intro hnone
    subst hnone
    simp [build_system_content, optStrTruthy]
  · intro s hs hne
    subst hs
    simp [build_system_content, optStrTruthy, hne]
  · have hinit : (initial_api_params g query hist tools).system = build_system_content hist ∧
        (initial_api_params g query hist tools).messages.head? =
          some ⟨"user", MessageContent.str query⟩ ∧
        (∀ m ∈ (initial_api_params g query hist tools).messages, m.role = "user" →
          m.content = MessageContent.str query ∨
            ∃ rs, m.content = MessageContent.toolResults rs) := by
      refine ⟨rfl, rfl, ?_⟩
      intro m hm hrole
      have hmeq : (initial_api_params g query hist tools).messages =
          [⟨"user", MessageContent.str query⟩] := rfl
      rw [hmeq, List.mem_singleton] at hm
      subst hm
      exact Or.inl rfl
    cases h0 : script 0 with
    | error e =>
        have hrun : AIGenerator.generate_response g script query hist tools tool_manager mtr =
            ⟨[initial_api_params g query hist tools], [], Except.error (PyErr.apiError e)⟩ := by
          simp only [AIGenerator.generate_response, h0]
        rw [hrun]
        intro params hparams
        rw [List.mem_singleton] at hparams
        subst hparams
        exact hinit
    | ok resp =>
        rcases htm : tool_manager with _ | tm
        · have hrun : AIGenerator.generate_response g script query hist tools none mtr =
              ⟨[initial_api_params g query hist tools], [], firstText resp.content⟩ := by
            simp only [AIGenerator.generate_response, h0]
          rw [hrun]
          intro params hparams
          rw [List.mem_singleton] at hparams
          subst hparams
          exact hinit
        · by_cases hstop : resp.stop_reason = "tool_use"
          · have hrun : AIGenerator.generate_response g script query hist tools (some tm) mtr =
                ⟨initial_api_params g query hist tools ::
                  (tool_round_loop g tm script (initial_api_params g query hist tools)
                    (resolve_max_rounds g mtr)
                    (initial_api_params g query hist tools).messages 1 resp 1).calls,
                 (tool_round_loop g tm script (initial_api_params g query hist tools)
                    (resolve_max_rounds g mtr)
                    (initial_api_params g query hist tools).messages 1 resp 1).dispatches,
                 (tool_round_loop g tm script (initial_api_params g query hist tools)
                    (resolve_max_rounds g mtr)
                    (initial_api_params g query hist tools).messages 1 resp 1).result⟩ := by
              simp only [AIGenerator.generate_response, h0, if_pos hstop,
                AIGenerator.handle_tool_execution]
            rw [hrun]
            intro params hparams
            rcases List.mem_cons.mp hparams with hparams | hparams
            · subst hparams
              exact hinit
            · have hmsgs : ∀ m ∈ (initial_api_params g query hist tools).messages,
                  engine_msg tm query m := by
                intro m hm
                have hmeq : (initial_api_params g query hist tools).messages =
                    [⟨"user", MessageContent.str query⟩] := rfl
                rw [hmeq, List.mem_singleton] at hm
                subst hm
                exact Or.inl ⟨rfl, Or.inl rfl⟩
              have hsys : params.system = (initial_api_params g query hist tools).system := by
                obtain ⟨j, hj⟩ := List.mem_iff_get?.mp hparams
                exact (tool_round_loop_call_params g tm script
                  (initial_api_params g query hist tools) _ _
                  (initial_api_params g query hist tools).messages 1 resp 1 (le_refl _)
                  j params hj).1
              obtain ⟨⟨tail, htail⟩, hall⟩ := tool_round_loop_messages g tm script
                (initial_api_params g query hist tools) _ query _
                (initial_api_params g query hist tools).messages 1 resp 1 (le_refl _)
                hmsgs params hparams
              refine ⟨hsys, ?_, ?_⟩
              · rw [htail]
                rfl
              · intro m hm hrole
                rcases hall m hm with ⟨-, hc⟩ | ⟨hrole2, -⟩
                · rcases hc with hc | ⟨rs, hrs, -⟩
                  · exact Or.inl hc
                  · exact Or.inr ⟨rs, hrs⟩
                · rw [hrole] at hrole2
                  exact absurd hrole2 (by decide)
          · have hrun : AIGenerator.generate_response g script query hist tools (some tm) mtr =
                ⟨[initial_api_params g query hist tools], [], firstText resp.content⟩ := by
              simp only [AIGenerator.generate_response, h0, if_neg hstop]
            rw [hrun]
            intro params hparams
            rw [List.mem_singleton] at hparams
            subst hparams
            exact hinit

/-- Witness for claim C4. -/
theorem claim_C4_witness : build_system_content none = SYSTEM_PROMPT :=
  (claim_C4_system_and_history egGen egScriptText ("hello") none none none none).1 rfl

/-- Claim C5: the engine never catches or transforms tool-level
failure — every tool result in every outgoing message carries,
verbatim, exactly the text the registry's execute_tool returned for
some requested name and arguments — while an exception raised by the
model call itself propagates out of generate_response unhandled. -/
theorem claim_C5_failure_policy (g : AIGenerator) (script : ModelScript) (query : String)
    (hist : Option String) (tools : Option (List ToolSchema)) (tm : ToolExecutor)
    (mtr : Option Int) :
    (∀ e, script ((AIGenerator.generate_response g script query hist tools (some tm)
        mtr).calls.length - 1) = Except.error e →
      (AIGenerator.generate_response g script query hist tools (some tm) mtr).result =
        Except.error (PyErr.apiError e)) ∧
    (∀ params ∈ (AIGenerator.generate_response g script query hist tools (some tm) mtr).calls,
      ∀ m ∈ params.messages, ∀ rs, m.content = MessageContent.toolResults rs →
        ∀ r ∈ rs, ∃ req : ToolUseReq, r.tool_use_id = req.id ∧ r.content = tm req.name req.input) := by
  cases h0 : script 0 with
  | error e0 =>
      have hrun : AIGenerator.generate_response g script query hist tools (some tm) mtr =
          ⟨[initial_api_params g query hist tools], [], Except.error (PyErr.apiError e0)⟩ := by
        simp only [AIGenerator.generate_response, h0]
      rw [hrun]
      constructor
      · intro e he
        simp only [List.length_singleton, Nat.sub_self, h0] at he
        obtain rfl : e0 = e := by injection he
        rfl
      · intro params hparams m hm rs hrs r hr
        rw [List.mem_singleton] at hparams
        subst hparams
        have hmeq : (initial_api_params g query hist tools).messages =
            [⟨"user", MessageContent.str query⟩] := rfl
        rw [hmeq, List.mem_singleton] at hm
        subst hm
        exact absurd hrs (by simp)
  | ok resp =>
      by_cases hstop : resp.stop_reason = "tool_use"
      · have hrun : AIGenerator.generate_response g script query hist tools (some tm) mtr =
            ⟨initial_api_params g query hist tools ::
              (tool_round_loop g tm script (initial_api_params g query hist tools)
                (resolve_max_rounds g mtr)
                (initial_api_params g query hist tools).messages 1 resp 1).calls,
             (tool_round_loop g tm script (initial_api_params g query hist tools)
                (resolve_max_rounds g mtr)
                (initial_api_params g query hist tools).messages 1 resp 1).dispatches,
             (tool_round_loop g tm script (initial_api_params g query hist tools)
                (resolve_max_rounds g mtr)
                (initial_api_params g query hist tools).messages 1 resp 1).result⟩ := by
          simp only [AIGenerator.generate_response, resolve_max_rounds, h0, if_pos hstop,
            AIGenerator.handle_tool_execution]
        obtain ⟨hnil, hlast⟩ := tool_round_loop_result g tm script
          (initial_api_params g query hist tools)
          (resolve_max_rounds g mtr)
          ((resolve_max_rounds g mtr) + 1 - 1).toNat
          (initial_api_params g query hist tools).messages 1 resp 1 (le_refl _)
        rw [hrun]
        constructor
        · intro e he
          simp only [List.length_cons] at he
          rcases hrest : (tool_round_loop g tm script (initial_api_params g query hist tools)
              (resolve_max_rounds g mtr)
              (initial_api_params g query hist tools).messages 1 resp 1).calls with _ | ⟨c, cs⟩
          · exfalso
            rw [hrest] at he
            simp only [List.length_nil, Nat.zero_add, Nat.sub_self, h0] at he
            exact Except.noConfusion he
          · have hne : (tool_round_loop g tm script (initial_api_params g query hist tools)
                (resolve_max_rounds g mtr)
                (initial_api_params g query hist tools).messages 1 resp 1).calls ≠ [] := by
              rw [hrest]
              simp
            apply hlast e hne
            have hlen : (tool_round_loop g tm script (initial_api_params g query hist tools)
                (resolve_max_rounds g mtr)
                (initial_api_params g query hist tools).messages 1 resp 1).calls.length =
                cs.length + 1 := by
              rw [hrest]
              simp
            rw [hlen]
            rw [hrest] at he
            simp only [List.length_cons] at he
            have harg : 1 + (cs.length + 1) - 1 = cs.length + 1 + 1 - 1 := by omega
            rw [harg]
            exact he
        · intro params hparams m hm rs hrs r hr
          rcases List.mem_cons.mp hparams with hparams | hparams
          · subst hparams
            have hmeq : (initial_api_params g query hist tools).messages =
                [⟨"user", MessageContent.str query⟩] := rfl
            rw [hmeq, List.mem_singleton] at hm
            subst hm
            exact absurd hrs (by simp)
          · have hmsgs : ∀ m0 ∈ (initial_api_params g query hist tools).messages,
                engine_msg tm query m0 := by
              intro m0 hm0
              have hmeq : (initial_api_params g query hist tools).messages =
                  [⟨"user", MessageContent.str query⟩] := rfl
              rw [hmeq, List.mem_singleton] at hm0
              subst hm0
              exact Or.inl ⟨rfl, Or.inl rfl⟩
            obtain ⟨-, hall⟩ := tool_round_loop_messages g tm script
              (initial_api_params g query hist tools) _ query _
              (initial_api_params g query hist tools).messages 1 resp 1 (le_refl _)
              hmsgs params hparams
            rcases hall m hm with ⟨-, hc⟩ | ⟨-, bs, hbs⟩
            · rcases hc with hc | ⟨rs2, hrs2, hverb⟩
              · rw [hrs] at hc
                exact absurd hc (by simp)
              · rw [hrs] at hrs2
                obtain rfl : rs = rs2 := by injection hrs2
                exact hverb r hr
            · rw [hrs] at hbs
              exact absurd hbs (by simp)
      · have hrun : AIGenerator.generate_response g script query hist tools (some tm) mtr =
            ⟨[initial_api_params g query hist tools], [], firstText resp.content⟩ := by
          simp only [AIGenerator.generate_response, h0, if_neg hstop]
        rw [hrun]
        constructor
        · intro e he
          simp only [List.length_singleton, Nat.sub_self, h0] at he
          exact Except.noConfusion he
        · intro params hparams m hm rs hrs r hr
          rw [List.mem_singleton] at hparams
          subst hparams
          have hmeq : (initial_api_params g query hist tools).messages =
              [⟨"user", MessageContent.str query⟩] := rfl
          rw [hmeq, List.mem_singleton] at hm
          subst hm
          exact absurd hrs (by simp)

/-- Witness for claim C5. -/
theorem claim_C5_witness :
    (fun (_ : Unit) => Except.error ("boom") : Unit → Except String Response) () =
      Except.error ("boom") ∧
    (AIGenerator.generate_response egGen (fun _ => Except.error ("boom")) ("hello") none none
      (some egExec) (some 2)).result = Except.error (PyErr.apiError ("boom")) := by
  refine ⟨rfl, ?_⟩
  exact (claim_C5_failure_policy egGen (fun _ => Except.error ("boom")) ("hello") none none
    egExec (some 2)).1 ("boom") rfl

/-- Claim C3: in a round whose response holds at least one tool_use
block, every such block is dispatched in the order the blocks appear,
each producing exactly one tool result pairing the block's call
identifier with the returned text; all results of the round are
bundled into one single user message carried by the very next model
call, and the dispatch trace of the round lists the blocks in
response order. -/
theorem claim_C3_ordered_dispatch_and_bundling (g : AIGenerator) (tm : ToolExecutor)
    (script : ModelScript) (base : ApiParams) (R : Int) (msgs : List ChatMessage)
    (cur : Int) (resp : Response) (k : Nat)
    (hcur : cur ≤ R) (hstop : resp.stop_reason = "tool_use")
    (hreq : toolUseRequests resp.content ≠ []) :
    execute_tools_for_response tm resp.content =
      (toolUseRequests resp.content).map
        (fun req => (⟨req.id, tm req.name req.input⟩ : ToolResult)) ∧
    (tool_round_loop g tm script base R msgs cur resp k).calls.head? =
      some (round_api_params g base R cur
        (msgs ++ [⟨"assistant", MessageContent.blocks resp.content⟩] ++
         [⟨"user", MessageContent.toolResults (execute_tools_for_response tm resp.content)⟩])) ∧
    ∃ tailD, (tool_round_loop g tm script base R msgs cur resp k).dispatches =
      (toolUseRequests resp.content).map
        (fun req => (⟨cur, req.name, req.input⟩ : Dispatch)) ++ tailD := by
  have hmap := execute_tools_eq_map tm resp.content
  have hne : ¬(execute_tools_for_response tm resp.content).isEmpty = true := by
    rw [hmap]
    simp only [List.isEmpty_iff, List.map_eq_nil_iff]
    exact hreq
  have hnexteq : next_messages tm msgs resp =
      msgs ++ [⟨"assistant", MessageContent.blocks resp.content⟩] ++
        [⟨"user", MessageContent.toolResults (execute_tools_for_response tm resp.content)⟩] := by
    unfold next_messages
    rw [if_neg hne]
  refine ⟨hmap, ?_, ?_⟩
  · rw [tool_round_loop_step _ _ _ _ _ _ _ _ _ hcur hstop]
    cases script k with
    | error e =>
        rw [hnexteq]
        rfl
    | ok r2 =>
        rw [hnexteq]
        rfl
  · rw [tool_round_loop_step _ _ _ _ _ _ _ _ _ hcur hstop]
    cases script k with
    | error e =>
        refine ⟨[], ?_⟩
        simp [dispatchesOf]
    | ok r2 =>
        refine ⟨(tool_round_loop g tm script base R (next_messages tm msgs resp) (cur + 1) r2
          (k + 1)).dispatches, ?_⟩
        rfl

/-- Witness for claim C3. -/
theorem claim_C3_witness :
    toolUseRequests egToolUseResp.content ≠ [] ∧
    execute_tools_for_response egExec egToolUseResp.content =
      (toolUseRequests egToolUseResp.content).map
        (fun req => (⟨req.id, egExec req.name req.input⟩ : ToolResult)) := by
  refine ⟨by decide, ?_⟩
  exact (claim_C3_ordered_dispatch_and_bundling egGen egExec egScript
    (initial_api_params egGen ("hello") none none) 2
    (initial_api_params egGen ("hello") none none).messages 1 egToolUseResp 1
    (by decide) rfl (by decide)).1

/-- Claim C10: in every loop iteration the assistant message is
appended unconditionally, while a tool-results user message is
appended if and only if the response held at least one tool_use
block; after a "tool_use" response with no tool_use blocks, the next
model call is issued with a message list ending in the assistant
message and the round performs zero dispatches. -/
theorem claim_C10_assistant_appended_results_conditional (g : AIGenerator) (tm : ToolExecutor)
    (script : ModelScript) (base : ApiParams) (R : Int) (msgs : List ChatMessage)
    (cur : Int) (resp : Response) (k : Nat)
    (hcur : cur ≤ R) (hstop : resp.stop_reason = "tool_use") :
    (tool_round_loop g tm script base R msgs cur resp k).calls.head? =
      some (round_api_params g base R cur (next_messages tm msgs resp)) ∧
    next_messages tm msgs resp =
      (msgs ++ [⟨"assistant", MessageContent.blocks resp.content⟩]) ++
        (if (execute_tools_for_response tm resp.content).isEmpty then []
         else [⟨"user", MessageContent.toolResults (execute_tools_for_response tm resp.content)⟩]) ∧
    (toolUseRequests resp.content = [] →
       (tool_round_loop g tm script base R msgs cur resp k).calls.head? =
         some (round_api_params g base R cur
           (msgs ++ [⟨"assistant", MessageContent.blocks resp.content⟩])) ∧
       (next_messages tm msgs resp).getLast? =
         some ⟨"assistant", MessageContent.blocks resp.content⟩ ∧
       (∀ d ∈ (tool_round_loop g tm script base R msgs cur resp k).dispatches, d.round ≠ cur)) := by
  have hhead : (tool_round_loop g tm script base R msgs cur resp k).calls.head? =
      some (round_api_params g base R cur (next_messages tm msgs resp)) := by
    rw [tool_round_loop_step _ _ _ _ _ _ _ _ _ hcur hstop]
    cases script k with
    | error e => rfl
    | ok r2 => rfl
  refine ⟨hhead, ?_, ?_⟩
  · unfold next_messages
    by_cases he : (execute_tools_for_response tm resp.content).isEmpty
    · rw [if_pos he, if_pos he, List.append_nil]
    · rw [if_neg he, if_neg he]
  · intro h0req
    have hexecnil : execute_tools_for_response tm resp.content = [] := by
      rw [execute_tools_eq_map, h0req]
      rfl
    have hempty : (execute_tools_for_response tm resp.content).isEmpty = true := by
      rw [hexecnil]
      rfl
    have hnexteq : next_messages tm msgs resp =
        msgs ++ [⟨"assistant", MessageContent.blocks resp.content⟩] := by
      unfold next_messages
      rw [if_pos hempty]
    refine ⟨by rw [← hnexteq]; exact hhead, by rw [hnexteq]; exact List.getLast?_concat _, ?_⟩
    have hdnil : dispatchesOf cur resp.content = [] := by
      unfold dispatchesOf
      rw [h0req]
      rfl
    intro d hd
    cases hsk : script k with
    | error e =>
        have hdisp : (tool_round_loop g tm script base R msgs cur resp k).dispatches =
            dispatchesOf cur resp.content := by
          rw [tool_round_loop_step _ _ _ _ _ _ _ _ _ hcur hstop, hsk]
        rw [hdisp, hdnil] at hd
        simp at hd
    | ok r2 =>
        have hdisp : (tool_round_loop g tm script base R msgs cur resp k).dispatches =
            dispatchesOf cur resp.content ++
              (tool_round_loop g tm script base R (next_messages tm msgs resp) (cur + 1) r2
                (k + 1)).dispatches := by
          rw [tool_round_loop_step _ _ _ _ _ _ _ _ _ hcur hstop, hsk]
        rw [hdisp, hdnil, List.nil_append] at hd
        have := tool_round_loop_dispatch_round g tm script base R
          ((R + 1 - (cur + 1)).toNat) (next_messages tm msgs resp) (cur + 1) r2 (k + 1)
          (le_refl _) d hd
        omega

/-- Witness for claim C10. -/
theorem claim_C10_witness :
    next_messages egExec (initial_api_params egGen ("hello") none none).messages egToolUseResp =
      ((initial_api_params egGen ("hello") none none).messages ++
        [⟨"assistant", MessageContent.blocks egToolUseResp.content⟩]) ++
        (if (execute_tools_for_response egExec egToolUseResp.content).isEmpty then []
         else [⟨"user", MessageContent.toolResults
           (execute_tools_for_response egExec egToolUseResp.content)⟩]) := by
  exact (claim_C10_assistant_appended_results_conditional egGen egExec egScript
    (initial_api_params egGen ("hello") none none) 2
    (initial_api_params egGen ("hello") none none).messages 1 egToolUseResp 1
    (by decide) rfl).2.1

/-- The ASCII apostrophe (code 39), as a one-character string. -/
def squote : String := String.singleton (Char.ofNat 39)

/-- Modelled from the spec: a Source Record — citation display text
with an optional URL, owned by the tool that produced it. -/
structure SourceRecord where
  text : String
  url : Option String
deriving DecidableEq, Repr

/-- Modelled from the spec: a registered tool of the Tool Registry
(search_tools.py is not under src/, only its tests are): its schema
name, its execute behaviour mapping keyword arguments to returned text
plus the Source Records of that call (which overwrite the stored
ones), and the tool's currently stored last_sources. -/
structure RegTool where
  name : String
  run : List (String × String) → String × List SourceRecord
  last_sources : List SourceRecord

/-- Modelled from the spec: the Tool Registry (class ToolManager of
search_tools.py, not under src/): the registered tools in
registration order, with unique names. -/
structure ToolManager where
  tools : List RegTool

/-- Modelled from the spec: `register_tool` adds by schema name;
re-registering an existing name replaces the prior tool. -/
def ToolManager.register_tool (tmgr : ToolManager) (t : RegTool) : ToolManager :=
  if tmgr.tools.any (fun u => u.name = t.name) then
    ⟨tmgr.tools.map (fun u => if u.name = t.name then t else u)⟩
  else ⟨tmgr.tools ++ [t]⟩

/-- Modelled from the spec: `execute_tool` looks up by name; if the
name is absent it returns the text Tool-quote-name-quote-not-found
(data, never an exception — the embedding is a total String-valued
function); otherwise it forwards the kwargs to the tool, returns its
text verbatim, and replaces that tool's stored sources. -/
def ToolManager.execute_tool (tmgr : ToolManager) (name : String)
    (kwargs : List (String × String)) : String × ToolManager :=
  match tmgr.tools.find? (fun u => u.name = name) with
  | none => ("Tool " ++ squote ++ name ++ squote ++ " not found", tmgr)
  | some t =>
      ((t.run kwargs).1,
       ⟨tmgr.tools.map (fun u =>
         if u.name = name then ⟨u.name, u.run, (t.run kwargs).2⟩ else u)⟩)

/-- Modelled from the spec: `get_last_sources` concatenates, in
registration order, every tool's current Source Record list. -/
def ToolManager.get_last_sources (tmgr : ToolManager) : List SourceRecord :=
  (tmgr.tools.map (fun u => u.last_sources)).flatten

/-- Modelled from the spec: `reset_sources` clears every registered
tool's Source Record list. -/
def ToolManager.reset_sources (tmgr : ToolManager) : ToolManager :=
  ⟨tmgr.tools.map (fun u => ⟨u.name, u.run, []⟩)⟩

/-- Claim C6: for every registry and every name not registered in it,
executing that name returns the text Tool-quote-name-quote-not-found —
a message containing the requested tool name — and leaves the registry
unchanged; the embedding is a total String-valued function, so it
never raises. -/
theorem claim_C6_unknown_tool (tmgr : ToolManager) (name : String)
    (kwargs : List (String × String))
    (habs : tmgr.tools.find? (fun u => u.name = name) = none) :
    (tmgr.execute_tool name kwargs).1 =
      "Tool " ++ squote ++ name ++ squote ++ " not found" ∧
    (tmgr.execute_tool name kwargs).2 = tmgr ∧
    ∃ a b, (tmgr.execute_tool name kwargs).1 = a ++ name ++ b := by
  unfold ToolManager.execute_tool
  rw [habs]
  refine ⟨rfl, rfl, "Tool " ++ squote, squote ++ " not found", ?_⟩
  simp [String.append_assoc]

/-- Witness for claim C6. -/
theorem claim_C6_witness :
    (ToolManager.mk []).tools.find? (fun u => u.name = "nonexistent_tool") = none ∧
    ((ToolManager.mk []).execute_tool ("nonexistent_tool") []).1 =
      "Tool " ++ squote ++ ("nonexistent_tool") ++ squote ++ " not found" := by
  refine ⟨rfl, ?_⟩
  exact (claim_C6_unknown_tool (ToolManager.mk []) ("nonexistent_tool") [] rfl).1

/-- Modelled from the spec: the result set of the Retrieval Service:
parallel documents and metadata (course title, optional lesson
number), or an error message. The parallel similarity scores are not
modelled; no claim concerns them. -/
structure SearchResults where
  documents : List String
  metadata : List (String × Option Int)
  error : Option String

/-- Modelled from the spec: the Retrieval Service interface the Search
Tool consumes. -/
structure VectorStore where
  search : String → Option String → Option Int → SearchResults
  get_lesson_link : String → Int → Option String
  get_course_link : String → Option String

/-- Modelled from the spec and tests: the message returned when a
search yields no passages, naming whichever filters were supplied. -/
def no_content_message (course_name : Option String) (lesson_number : Option Int) : String :=
  "No relevant content found" ++
    (match course_name with
     | some c => " in course " ++ squote ++ c ++ squote
     | none => "") ++
    (match lesson_number with
     | some n => " in lesson " ++ toString n
     | none => "") ++ "."

/-- Modelled from the spec: one formatted passage block — a label with
the course title and, when present, the lesson number, followed by
the passage text. -/
def format_block (title : String) (lesson : Option Int) (doc : String) : String :=
  "[" ++ title ++
    (match lesson with
     | some n => " - Lesson " ++ toString n
     | none => "") ++ ("]\n") ++ doc

/-- Modelled from the spec: the Source Record built for one passage:
display text from the course title and optional lesson number, URL
looked up per-lesson or per-course. -/
def source_for (store : VectorStore) (title : String) (lesson : Option Int) : SourceRecord :=
  match lesson with
  | some n => ⟨title ++ " - Lesson " ++ toString n, store.get_lesson_link title n⟩
  | none => ⟨title, store.get_course_link title⟩

/-- Modelled from the spec: `CourseSearchTool.execute` (search_tools.py
is not under src/, only its tests are): delegate to the Retrieval
Service; on a service error return the error text verbatim with empty
sources; on an empty result set return the no-content message naming
the supplied filters, with empty sources; otherwise format the
passages in ranked order and replace the sources with one record per
passage. Returns the text together with the tool's stored
last_sources after the call. -/
def CourseSearchTool.execute (store : VectorStore) (query : String)
    (course_name : Option String) (lesson_number : Option Int) : String × List SourceRecord :=
  match (store.search query course_name lesson_number).error with
  | some e => (e, [])
  | none =>
      if (store.search query course_name lesson_number).documents.isEmpty then
        (no_content_message course_name lesson_number, [])
      else
        let pairs := (store.search query course_name lesson_number).documents.zip
          (store.search query course_name lesson_number).metadata
        (String.intercalate ("\n\n") (pairs.map (fun p => format_block p.2.1 p.2.2 p.1)),
         pairs.map (fun p => source_for store p.2.1 p.2.2))

/-- Claim C7: when retrieval returns zero passages, the Search Tool's
returned text starts with the explicit no-content indicator and names
whichever of the course-name and lesson-number filters were supplied,
and the tool's stored Source Record list is empty immediately
afterwards, so collecting sources for the tool yields nothing. -/
theorem claim_C7_empty_search (store : VectorStore) (query : String)
    (course_name : Option String) (lesson_number : Option Int)
    (herr : (store.search query course_name lesson_number).error = none)
    (hdocs : (store.search query course_name lesson_number).documents = []) :
    (∃ b, (CourseSearchTool.execute store query course_name lesson_number).1 =
       "No relevant content found" ++ b) ∧
    (∀ c, course_name = some c →
       ∃ a b, (CourseSearchTool.execute store query course_name lesson_number).1 =
         a ++ c ++ b) ∧
    (∀ n, lesson_number = some n →
       ∃ a b, (CourseSearchTool.execute store query course_name lesson_number).1 =
         a ++ ("lesson " ++ toString n) ++ b) ∧
    (CourseSearchTool.execute store query course_name lesson_number).2 = [] := by
  have hempty : (store.search query course_name lesson_number).documents.isEmpty = true := by
    rw [hdocs]
    rfl
  have hrun : CourseSearchTool.execute store query course_name lesson_number =
      (no_content_message course_name lesson_number, []) := by
    unfold CourseSearchTool.execute
    rw [herr, if_pos hempty]
  rw [hrun]
  have hsp : (" in lesson " : String) = " in " ++ "lesson " := by decide
  refine ⟨?_, ?_, ?_, rfl⟩
  · cases course_name with
    | none =>
        cases lesson_number with
        | none =>
            exact ⟨"" ++ ("" ++ "."),
              by simp only [no_content_message, String.append_assoc]⟩
        | some n =>
            exact ⟨"" ++ (" in lesson " ++ (toString n ++ ".")),
              by simp only [no_content_message, String.append_assoc]⟩
    | some c =>
        cases lesson_number with
        | none =>
            exact ⟨" in course " ++ (squote ++ (c ++ (squote ++ ("" ++ ".")))),
              by simp only [no_content_message, String.append_assoc]⟩
        | some n =>
            exact ⟨" in course " ++ (squote ++ (c ++ (squote ++
                (" in lesson " ++ (toString n ++ "."))))),
              by simp only [no_content_message, String.append_assoc]⟩
  · intro c hc
    subst hc
    cases lesson_number with
    | none =>
        exact ⟨"No relevant content found" ++ " in course " ++ squote,
          squote ++ ("" ++ "."),
          by simp only [no_content_message, String.append_assoc]⟩
    | some n =>
        exact ⟨"No relevant content found" ++ " in course " ++ squote,
          squote ++ (" in lesson " ++ (toString n ++ ".")),
          by simp only [no_content_message, String.append_assoc]⟩
  · intro n hn
    subst hn
    cases course_name with
    | none =>
        refine ⟨"No relevant content found" ++ ("" ++ " in "), ".", ?_⟩
        simp only [no_content_message]
        rw [hsp]
        simp only [String.append_assoc]
    | some c =>
        refine ⟨"No relevant content found" ++
          (" in course " ++ (squote ++ (c ++ (squote ++ " in ")))), ".", ?_⟩
        simp only [no_content_message]
        rw [hsp]
        simp only [String.append_assoc]

/-- A concrete store returning no passages, used by the witness. -/
def egStore : VectorStore := ⟨fun _ _ _ => ⟨[], [], none⟩, fun _ _ => none, fun _ => none⟩

/-- Witness for claim C7. -/
theorem claim_C7_witness :
    (egStore.search ("xyz123") none none).error = none ∧
    (egStore.search ("xyz123") none none).documents = [] ∧
    (CourseSearchTool.execute egStore ("xyz123") none none).2 = [] := by
  refine ⟨rfl, rfl, ?_⟩
  exact (claim_C7_empty_search egStore ("xyz123") none none rfl rfl).2.2.2

/-- Clearing sources leaves every tool with an empty Source Record
list, so collecting afterwards yields nothing. -/
theorem get_last_sources_reset (tmgr : ToolManager) :
    tmgr.reset_sources.get_last_sources = [] := by
  unfold ToolManager.reset_sources ToolManager.get_last_sources
  induction tmgr.tools with
  | nil => rfl
  | cons t ts ih => simp [ih]

/-- Modelled from the spec: the Orchestrator query transaction
(rag_system.py is not under src/, only its tests are): run the
Generation Engine with the registry attached, then read the collected
sources from the registry and immediately clear them — regardless of
how many tool rounds occurred — and return the answer paired with the
read sources plus the cleared registry. The Generation Engine is
abstracted as a function from query text and registry to answer text
and updated registry. -/
def rag_query (gen : String → ToolManager → String × ToolManager)
    (tmgr : ToolManager) (text : String) : (String × List SourceRecord) × ToolManager :=
  (((gen text tmgr).1, (gen text tmgr).2.get_last_sources), (gen text tmgr).2.reset_sources)

/-- Claim C8: a query transaction always leaves the registry with every
tool's Source Records cleared — collecting on the post-state is empty
and each tool's stored list is empty — so the sources returned by the
next transaction on the same registry are exactly what its own
generation run produces from a cleared registry, and can contain no
record produced during the first transaction; in particular, a second
transaction whose generation executes no tool returns an empty source
list. -/
theorem claim_C8_sources_cleared_between_queries
    (gen : String → ToolManager → String × ToolManager)
    (tmgr : ToolManager) (q1 q2 : String) :
    ((rag_query gen tmgr q1).2).get_last_sources = [] ∧
    (∀ t ∈ ((rag_query gen tmgr q1).2).tools, t.last_sources = []) ∧
    (rag_query gen (rag_query gen tmgr q1).2 q2).1.2 =
      ((gen q2 (rag_query gen tmgr q1).2).2).get_last_sources ∧
    (∀ a, gen q2 (rag_query gen tmgr q1).2 = (a, (rag_query gen tmgr q1).2) →
      (rag_query gen (rag_query gen tmgr q1).2 q2).1.2 = []) := by
  refine ⟨?_, ?_, rfl, ?_⟩
  · exact get_last_sources_reset _
  · intro t ht
    have : (rag_query gen tmgr q1).2 = (gen q1 tmgr).2.reset_sources := rfl
    rw [this] at ht
    unfold ToolManager.reset_sources at ht
    simp only [List.mem_map] at ht
    obtain ⟨u, -, rfl⟩ := ht
    rfl
  · intro a ha
    have : (rag_query gen (rag_query gen tmgr q1).2 q2).1.2 =
        (gen q2 (rag_query gen tmgr q1).2).2.get_last_sources := rfl
    rw [this, ha]
    exact get_last_sources_reset _

/-- A concrete generation function for the witness: returns a fixed
answer and leaves the registry untouched. -/
def egGenFun : String → ToolManager → String × ToolManager := fun q tmgr => (q, tmgr)

/-- A concrete registry holding one tool with a stale source record,
used by the witness. -/
def egRegistry : ToolManager :=
  ⟨[⟨"search_course_content", fun _ => ("ok", []), [⟨"Stale Course - Lesson 1", none⟩]⟩]⟩

/-- Witness for claim C8. -/
theorem claim_C8_witness :
    ((rag_query egGenFun egRegistry ("first query")).2).get_last_sources = [] :=
  (claim_C8_sources_cleared_between_queries egGenFun egRegistry ("first query")
    ("second query")).1
